import Mathlib

/-!
Shallow embedding of `src/engine/agg_file.cpp` (an AGG asset-archive reader,
override store and ICN sprite-container encoder), together with proofs about
the behaviour of `AGGFile::open`, `AGGFile::read` and
`AGGFile::spawnIcnFromDir`.

Bytes are modelled as `Nat` values (each below 256 in practice), byte
sequences as `List Nat`, and machine arithmetic is made explicit with
`% 2^16` / `% 2^32` where the C++ code performs `uint16_t` / `uint32_t`
casts. Names (`std::string`) are modelled as `List Nat` byte sequences.
-/

/-- Truncation to `uint16_t`, as performed by a `static_cast<uint16_t>`. -/
def u16 (n : Nat) : Nat := n % 65536

/-- Truncation to `uint32_t`, as performed by a `static_cast<uint32_t>`. -/
def u32 (n : Nat) : Nat := n % 4294967296

/-- Little-endian byte encoding of a 16-bit value (`putLE16`). -/
def le16 (n : Nat) : List Nat := [n % 256, n / 256 % 256]

/-- Little-endian byte encoding of a 32-bit value (`putLE32`). -/
def le32 (n : Nat) : List Nat :=
  [n % 256, n / 256 % 256, n / 65536 % 256, n / 16777216 % 256]

/-- Little-endian decoding of the first two bytes of a byte sequence. -/
def decLE16 (l : List Nat) : Nat := l.getD 0 0 + 256 * l.getD 1 0

/-- Little-endian decoding of the first four bytes of a byte sequence. -/
def decLE32 (l : List Nat) : Nat :=
  l.getD 0 0 + 256 * l.getD 1 0 + 65536 * l.getD 2 0 + 16777216 * l.getD 3 0

/-- Binary cursor over a byte buffer (the `StreamFile` / `StreamBuf`
collaborator): the underlying bytes, a read position, and a failure flag set
by out-of-bounds reads. -/
structure RStream where
  data : List Nat
  pos : Nat
  failFlag : Bool
deriving DecidableEq

/-- Read one byte and advance (`get8`); out of bounds sets the failure flag
and yields 0. -/
def rsGet8 (s : RStream) : Nat × RStream :=
  if s.pos < s.data.length then
    (s.data.getD s.pos 0, ⟨s.data, s.pos + 1, s.failFlag⟩)
  else
    (0, ⟨s.data, s.pos, true⟩)

/-- Read a little-endian 16-bit value (`getLE16`). -/
def rsGetLE16 (s : RStream) : Nat × RStream :=
  let a := rsGet8 s
  let b := rsGet8 a.2
  (a.1 + 256 * b.1, b.2)

/-- Read a little-endian 32-bit value (`getLE32`). -/
def rsGetLE32 (s : RStream) : Nat × RStream :=
  let a := rsGet8 s
  let b := rsGet8 a.2
  let c := rsGet8 b.2
  let d := rsGet8 c.2
  (a.1 + 256 * b.1 + 65536 * c.1 + 16777216 * d.1, d.2)

/-- Set the absolute read position (`seek`). -/
def rsSeek (s : RStream) (p : Nat) : RStream := ⟨s.data, p, s.failFlag⟩

/-- Carve out the next `n` bytes as a fresh sub-cursor (`toStreamBuf`),
advancing the parent cursor; asking for more bytes than remain marks the
parent cursor failed. Returns (sub-cursor, advanced parent cursor). -/
def rsToStreamBuf (s : RStream) (n : Nat) : RStream × RStream :=
  (⟨(s.data.drop s.pos).take n, 0, false⟩,
   ⟨s.data, s.pos + n, s.failFlag || decide (s.data.length < s.pos + n)⟩)

/-- Read `n` bytes as a string truncated at the first NUL byte
(`StreamBuf::toString`), advancing the cursor by `n`. -/
def rsToString (s : RStream) (n : Nat) : List Nat × RStream :=
  (((s.data.drop s.pos).take n).takeWhile (fun b => b != 0),
   ⟨s.data, s.pos + n, s.failFlag || decide (s.data.length < s.pos + n)⟩)

/-- Extract `n` raw bytes from the current position (`getRaw`). -/
def rsGetRaw (s : RStream) (n : Nat) : List Nat := (s.data.drop s.pos).take n

/-- The `_files` member, `std::map<std::string, std::pair<uint32_t,uint32_t>>`
mapping a name to (fileSize, fileOffset); modelled as a key-unique
association list. -/
abbrev FilesMap := List (List Nat × Nat × Nat)

/-- The `_externals` member, mapping a name to (override bytes, origin flag). -/
abbrev ExternalsMap := List (List Nat × List Nat × Bool)

/-- `std::map::find` on the files map, returning the mapped value. -/
def mapFind (m : FilesMap) (k : List Nat) : Option (Nat × Nat) :=
  (m.find? (fun e => e.1 == k)).map (fun e => e.2)

/-- `std::map::find` on the externals map, returning the mapped value. -/
def extFind (m : ExternalsMap) (k : List Nat) : Option (List Nat × Bool) :=
  (m.find? (fun e => e.1 == k)).map (fun e => e.2)

/-- `std::map::try_emplace`: inserts only when the key is not yet present;
an insertion attempt with a present key leaves the map unchanged. -/
def tryEmplace (m : FilesMap) (k : List Nat) (v : Nat × Nat) : FilesMap :=
  if m.any (fun e => e.1 == k) then m else m ++ [(k, v)]

/-- The `AGGFile` object state: the archive index and the override store. -/
structure AGGFile where
  files : FilesMap
  externals : ExternalsMap
deriving DecidableEq

/-- The parsing loop of `AGGFile::open` (source lines 59-65): each iteration
reads one fixed-width name from the name-table cursor and one 12-byte
directory record (CRC skipped, then offset, then size) from the directory
cursor, and inserts name -> (fileSize, fileOffset) with `try_emplace`. -/
def parseLoop (w : Nat) : Nat → RStream → RStream → FilesMap → FilesMap
  | 0, _, _, m => m
  | k + 1, nameEntries, fileEntries, m =>
    let nm := rsToString nameEntries w
    let crc := rsGetLE32 fileEntries
    let off := rsGetLE32 crc.2
    let sz := rsGetLE32 off.2
    parseLoop w k nm.2 sz.2 (tryEmplace m nm.1 (sz.1, off.1))

/-- The index that the parsing loop of `AGGFile::open` produces on a given
archive file image; `w` is the `_maxFilenameSize` constant (declared in the
class header, outside this translation unit, hence a parameter). -/
def openParsedFiles (data : List Nat) (w : Nat) : FilesMap :=
  let c := rsGetLE16 ⟨data, 0, false⟩
  let fe := rsToStreamBuf c.2 (c.1 * 12)
  let s3 := rsSeek fe.2 (data.length - w * c.1)
  let ne := rsToStreamBuf s3 (w * c.1)
  parseLoop w c.1 ne.1 fe.1 []

/-- Embeds `AGGFile::open` (named `open'` because `open` is a Lean keyword).
`data` is the archive file image, `w` the `_maxFilenameSize` constant, and
`ext` the override entries that `collectExternals` — a filesystem scan,
external to this model — registers. Returns the final object state together
with the boolean result of `open`. -/
def AGGFile.open' (data : List Nat) (w : Nat) (ext : ExternalsMap) : AGGFile × Bool :=
  let size := data.length
  let c := rsGetLE16 ⟨data, 0, false⟩
  if c.1 * (12 + w) ≥ size then (⟨[], []⟩, false)
  else
    let fe := rsToStreamBuf c.2 (c.1 * 12)
    let s3 := rsSeek fe.2 (size - w * c.1)
    let ne := rsToStreamBuf s3 (w * c.1)
    let files := parseLoop w c.1 ne.1 fe.1 []
    if files.length ≠ c.1 then (⟨[], []⟩, false)
    else (⟨files, ext⟩, !ne.2.failFlag)

/-- Embeds `AGGFile::read`: archive lookup with override precedence.
`data` is the archive file image backing `_stream`. -/
def AGGFile.read (a : AGGFile) (data : List Nat) (fileName : List Nat) : List Nat :=
  match mapFind a.files fileName with
  | some fileParams =>
    if 0 < fileParams.1 then
      match extFind a.externals fileName with
      | some externalParams => externalParams.1
      | none => rsGetRaw (rsSeek ⟨data, 0, false⟩ fileParams.2) fileParams.1
    else []
  | none => []

/-- Model of a decoded image (an `SDL_Surface` produced by `IMG_Load`): its
width and height, and the RGBA32 pixel buffer after the conversion step of
`getPixelsFromSurface`; `rgba = none` models `SDL_ConvertSurfaceFormat`
returning null (the conversion preserves width and height when it succeeds). -/
structure Surface where
  w : Nat
  h : Nat
  rgba : Option (List Nat)
deriving DecidableEq

/-- Embeds `AGGFile::getPixelsFromSurface`: on conversion failure it returns
the empty sequence; otherwise its row-major loop copies, byte by byte and in
order, exactly `4 * w * h` leading bytes of the converted RGBA buffer. -/
def AGGFile.getPixelsFromSurface (s : Surface) : List Nat :=
  match s.rgba with
  | none => []
  | some buf => buf.take (4 * s.w * s.h)

/-- The 13-byte slot header that `spawnIcnFromDir` builds for one frame:
offsetX = 0, offsetY = 0, width, height, animation frames = 0, offsetData. -/
def slotHeader (width height offsetData : Nat) : List Nat :=
  le16 0 ++ le16 0 ++ le16 width ++ le16 height ++ [0] ++ le32 offsetData

/-- The per-file loop of `AGGFile::spawnIcnFromDir` (source lines 141-179).
Each list element is the result of `IMG_Load` on one listed png file, in
listing order; `none` models a load failure, on which the whole encode
returns the empty blob. `result` is the output built so far and
`currentOffset` the `uint32_t` running offset. -/
def AGGFile.spawnIcnLoop : List (Option Surface) → List Nat → Nat → Option (List Nat)
  | [], result, _ => some result
  | none :: _, _, _ => none
  | some s :: rest, result, currentOffset =>
    let width := u16 s.w
    let height := u16 s.h
    let pixelDataStartsAt := u32 (currentOffset + 13)
    let slotHeaderRaw := slotHeader width height pixelDataStartsAt
    let result1 := result ++ slotHeaderRaw ++ [0xAB] ++ [0xCD] ++ [0xEF]
    let result2 := result1 ++ AGGFile.getPixelsFromSurface s
    AGGFile.spawnIcnLoop rest result2 (u32 result2.length)

/-- Embeds `AGGFile::spawnIcnFromDir`: the listed png files (in directory
listing order) are encoded into one ICN container blob; the result is empty
when no png is listed or when any image fails to load. The debug file dump in
the C++ code is a side effect with no bearing on the returned bytes. -/
def AGGFile.spawnIcnFromDir (pngFiles : List (Option Surface)) : List Nat :=
  if pngFiles.isEmpty then []
  else
    let count := u16 pngFiles.length
    match AGGFile.spawnIcnLoop pngFiles [] 0 with
    | none => []
    | some result => (le16 count ++ le32 (u32 result.length)) ++ result

/-- The bytes one frame contributes to the frame-data region when its header
begins at region offset `off`. -/
def frameBytes (s : Surface) (off : Nat) : List Nat :=
  slotHeader (u16 s.w) (u16 s.h) (u32 (off + 13)) ++ [0xAB, 0xCD, 0xEF]
    ++ AGGFile.getPixelsFromSurface s

/-- The whole frame-data region for a list of decoded images, the first
frame's header beginning at region offset `off`. -/
def framesFrom : List Surface → Nat → List Nat
  | [], _ => []
  | s :: rest, off => frameBytes s off ++ framesFrom rest (off + (frameBytes s off).length)

/-- Number of bytes one frame occupies in the frame-data region. -/
def frameLen (s : Surface) : Nat := 16 + (AGGFile.getPixelsFromSurface s).length

/-- Region offset at which frame `i`'s header begins. -/
def frameStart (surfaces : List Surface) (i : Nat) : Nat :=
  ((surfaces.take i).map frameLen).sum


/-- Concrete override directory for the C1 scenario: two decodable images of
sizes 2 by 2 and 1 by 1, in that listing order. -/
def c1Dir : List (Option Surface) :=
  [some ⟨2, 2, some (List.replicate 16 7)⟩, some ⟨1, 1, some (List.replicate 4 9)⟩]

/-- Concrete name table with the same 8-byte name slot twice. -/
def c2NameTable : List Nat := [65, 0, 0, 0, 0, 0, 0, 0, 65, 0, 0, 0, 0, 0, 0, 0]

/-- Concrete directory records for the duplicate-name scenario: the first
occurrence carries (offset 10, size 1), the second (offset 20, size 2). -/
def c2Records : List Nat :=
  [0, 0, 0, 0, 10, 0, 0, 0, 1, 0, 0, 0, 0, 0, 0, 0, 20, 0, 0, 0, 2, 0, 0, 0]

/-- Decoding inverts the 16-bit little-endian encoding, modulo 2^16. -/
theorem decLE16_le16 (n : Nat) : decLE16 (le16 n) = n % 65536 := by
  simp [decLE16, le16]; omega

/-- Decoding inverts the 32-bit little-endian encoding, modulo 2^32. -/
theorem decLE32_le32 (n : Nat) : decLE32 (le32 n) = n % 4294967296 := by
  simp [decLE32, le32]; omega

/-- A frame occupies header (13) + marker (3) + pixel bytes in the region. -/
theorem frameBytes_length (s : Surface) (off : Nat) :
    (frameBytes s off).length = frameLen s := by
  simp [frameBytes, slotHeader, frameLen, le16, le32]; omega

/-- Dropping the length of a left part plus `k` drops `k` of the right part. -/
theorem drop_len_add {α : Type} (l₁ l₂ : List α) (k : Nat) :
    (l₁ ++ l₂).drop (l₁.length + k) = l₂.drop k := by
  rw [← List.drop_drop, List.drop_left]

/-- First two bytes of an encoder blob are the 16-bit count field. -/
theorem hdr_take2 (a b : Nat) (r : List Nat) :
    ((le16 a ++ le32 b) ++ r).take 2 = le16 a := rfl

/-- Bytes 2-5 of an encoder blob are the 32-bit size field. -/
theorem hdr_drop2_take4 (a b : Nat) (r : List Nat) :
    (((le16 a ++ le32 b) ++ r).drop 2).take 4 = le32 b := rfl

/-- Dropping the 6-byte container header exposes the frame-data region. -/
theorem hdr_drop6 (a b : Nat) (r : List Nat) :
    ((le16 a ++ le32 b) ++ r).drop 6 = r := rfl

/-- Dropping `6 + k` bytes of an encoder blob drops `k` bytes of the region. -/
theorem hdr_drop6_add (a b k : Nat) (r : List Nat) :
    ((le16 a ++ le32 b) ++ r).drop (6 + k) = r.drop k := by
  rw [show 6 + k = (le16 a ++ le32 b).length + k from by simp [le16, le32]]
  exact drop_len_add _ _ _

/-- Bytes 9-12 of a slot header hold its 32-bit offsetData field. -/
theorem slotHeader_decomp (a b c : Nat) (tail : List Nat) :
    ((slotHeader a b c ++ tail).drop 9).take 4 = le32 c := rfl

/-- Claim C4: when a name has an archive index entry of positive recorded
size and a registered override, `read` returns exactly the override's
registered bytes, regardless of the archive record or the archive bytes. -/
theorem c4_override_precedence (a : AGGFile) (data fileName : List Nat)
    (sz off : Nat) (raw : List Nat) (flag : Bool)
    (hfile : mapFind a.files fileName = some (sz, off))
    (hpos : 0 < sz)
    (hext : extFind a.externals fileName = some (raw, flag)) :
    AGGFile.read a data fileName = raw := by
  simp [AGGFile.read, hfile, hpos, hext]

/-- Witness for C4 at a concrete state: the override bytes [7, 7, 7] win over
the archive bytes at (offset 5, size 3). -/
theorem c4_witness :
    AGGFile.read ⟨[([65], 3, 5)], [([65], [7, 7, 7], true)]⟩
      [1, 2, 3, 4, 5, 6, 7, 8, 9, 10] [65] = [7, 7, 7] :=
  c4_override_precedence _ _ _ 3 5 [7, 7, 7] true (by decide) (by decide) (by decide)

/-- Claim C8: a name whose archive record has size zero yields an empty
result from `read`, for every override store, even one that registers that
very name. -/
theorem c8_zero_size_entry (a : AGGFile) (data fileName : List Nat) (off : Nat)
    (hfile : mapFind a.files fileName = some (0, off)) :
    AGGFile.read a data fileName = [] := by
  simp [AGGFile.read, hfile]

/-- Witness for C8 at a concrete state in which an override for the zero-size
name is registered and is still ignored. -/
theorem c8_witness :
    AGGFile.read ⟨[([66], 0, 9)], [([66], [1, 2, 3], true)]⟩
      [9, 9, 9, 9, 9, 9, 9, 9, 9, 9, 9, 9] [66] = [] :=
  c8_zero_size_entry _ _ _ 9 (by decide)

/-- Claim C10: a name absent from the archive index yields an empty result
from `read` even when an override with exactly that name is registered:
overrides never introduce a new asset name. -/
theorem c10_absent_name (a : AGGFile) (data fileName : List Nat)
    (habs : mapFind a.files fileName = none) :
    AGGFile.read a data fileName = [] := by
  simp [AGGFile.read, habs]

/-- Witness for C10 at a concrete state with an override registered for a
name the archive index does not contain. -/
theorem c10_witness :
    AGGFile.read ⟨[], [([67], [5, 5], true)]⟩ [1, 2, 3] [67] = [] :=
  c10_absent_name _ _ _ (by decide)

/-- Claim C6: whenever the 2-byte header count satisfies
`count * (12 + nameFieldWidth) >= fileSize`, `open` fails without building an
index (and without registering overrides). -/
theorem c6_header_count_guard (data : List Nat) (w : Nat) (ext : ExternalsMap)
    (h : (rsGetLE16 ⟨data, 0, false⟩).1 * (12 + w) ≥ data.length) :
    AGGFile.open' data w ext = (⟨[], []⟩, false) := by
  simp only [AGGFile.open']
  rw [if_pos h]

/-- Witness for C6: a 2-byte file claiming 5 entries. -/
theorem c6_witness : AGGFile.open' [5, 0] 8 [] = (⟨[], []⟩, false) :=
  c6_header_count_guard [5, 0] 8 [] (by decide)

/-- Claim C5: when the size guard passes but the number of distinct inserted
entries after the parsing loop differs from the header count, `open` fails
and clears both the name index and the override entries. -/
theorem c5_count_mismatch_clears (data : List Nat) (w : Nat) (ext : ExternalsMap)
    (hguard : (rsGetLE16 ⟨data, 0, false⟩).1 * (12 + w) < data.length)
    (hmism : (openParsedFiles data w).length ≠ (rsGetLE16 ⟨data, 0, false⟩).1) :
    AGGFile.open' data w ext = (⟨[], []⟩, false) := by
  simp only [AGGFile.open']
  rw [if_neg (Nat.not_le.mpr hguard)]
  simp only [openParsedFiles] at hmism
  rw [if_pos hmism]

/-- Witness for C5: a 42-byte archive claiming 2 entries whose name table
holds the same name twice, opened with a non-empty override store that must
end up cleared. -/
theorem c5_witness :
    AGGFile.open'
      [2, 0,
       0, 0, 0, 0, 10, 0, 0, 0, 1, 0, 0, 0,
       0, 0, 0, 0, 20, 0, 0, 0, 2, 0, 0, 0,
       65, 0, 0, 0, 0, 0, 0, 0, 65, 0, 0, 0, 0, 0, 0, 0]
      8 [([88], [1], true)]
      = (⟨[], []⟩, false) :=
  c5_count_mismatch_clears _ 8 _ (by decide) (by decide)

/-- Counterexample for claim C2: processing two directory slots that carry
the same name (records (offset 10, size 1) then (offset 20, size 2)), the
index does not map the name to the later record, so the later occurrence
does not replace the earlier one. -/
theorem c2_counterexample :
    mapFind (parseLoop 8 2 ⟨c2NameTable, 0, false⟩ ⟨c2Records, 0, false⟩ []) [65]
      ≠ some (2, 20) := by decide

/-- Claim C2 (amended): duplicate insertion during the parsing loop of `open`
is first-insert-wins: an iteration whose name is already present in the index
leaves the index completely unchanged (so the earlier (offset, size) record
is kept and the index size does not increase), only the cursors advance. -/
theorem c2_first_insert_wins (w k : Nat) (ns fs : RStream) (m : FilesMap)
    (h : m.any (fun e => e.1 == (rsToString ns w).1) = true) :
    parseLoop w (k + 1) ns fs m
      = parseLoop w k (rsToString ns w).2
          (rsGetLE32 (rsGetLE32 (rsGetLE32 fs).2).2).2 m := by
  simp only [parseLoop, tryEmplace, h, if_true]

/-- Witness for C2 at the concrete duplicate-name state: the second iteration
of the loop (name already mapped to (size 1, offset 10)) is a no-op on the
index. -/
theorem c2_first_insert_wins_witness :
    parseLoop 8 1 ⟨c2NameTable, 8, false⟩ ⟨c2Records, 12, false⟩ [([65], 1, 10)]
      = parseLoop 8 0 (rsToString ⟨c2NameTable, 8, false⟩ 8).2
          (rsGetLE32 (rsGetLE32 (rsGetLE32 ⟨c2Records, 12, false⟩).2).2).2
          [([65], 1, 10)] :=
  c2_first_insert_wins 8 0 _ _ _ (by decide)

/-- Counterexample for claim C1: on the two-image directory (2 by 2 then
1 by 1), the blob's count field (bytes 0-1) is 2 and the first frame header's
width and height fields (blob bytes 10-11 and 12-13) are 2, but the second
frame header's pixelDataOffset field (blob bytes 47-50, the header beginning
at 6 + 32 = 38) is not 32, the total number of bytes emitted for the first
frame. -/
theorem c1_counterexample :
    ¬ (decLE16 ((AGGFile.spawnIcnFromDir c1Dir).take 2) = 2
       ∧ decLE16 (((AGGFile.spawnIcnFromDir c1Dir).drop 10).take 2) = 2
       ∧ decLE16 (((AGGFile.spawnIcnFromDir c1Dir).drop 12).take 2) = 2
       ∧ decLE32 (((AGGFile.spawnIcnFromDir c1Dir).drop 47).take 4) = 32) := by
  decide

/-- Claim C1 (amended): on the two-image directory (2 by 2 then 1 by 1), the
encoder output has frameCount = 2 and first frame width = height = 2, and the
second frame header's pixelDataOffset field equals 45 = 32 + 13: the total
bytes emitted for the first frame (13 + 3 + 16 = 32) plus the 13-byte slot
header size, not 32 itself. -/
theorem c1_amended_scenario :
    decLE16 ((AGGFile.spawnIcnFromDir c1Dir).take 2) = 2
    ∧ decLE16 (((AGGFile.spawnIcnFromDir c1Dir).drop 10).take 2) = 2
    ∧ decLE16 (((AGGFile.spawnIcnFromDir c1Dir).drop 12).take 2) = 2
    ∧ decLE32 (((AGGFile.spawnIcnFromDir c1Dir).drop 47).take 4) = 45 := by
  decide

/-- A load failure anywhere in the listing makes the encoder loop abort. -/
theorem spawnIcnLoop_of_mem_none :
    ∀ (files : List (Option Surface)) (acc : List Nat) (off : Nat),
      none ∈ files → AGGFile.spawnIcnLoop files acc off = none := by
  intro files
  induction files with
  | nil => intro acc off h; simp at h
  | cons x rest ih =>
    intro acc off h
    cases x with
    | none => rfl
    | some s =>
      have hrest : none ∈ rest := by simpa using h
      simp only [AGGFile.spawnIcnLoop]
      exact ih _ _ hrest

/-- Counterexample for claim C3: a directory whose single image decodes but
cannot be format-converted (DecodeFailure on conversion) does not make the
encoder return the empty byte sequence; it returns a partially populated
blob whose frame carries no pixel bytes. -/
theorem c3_counterexample : AGGFile.spawnIcnFromDir [some ⟨2, 2, none⟩] ≠ [] := by
  decide

/-- Claim C3 (amended): the encoder fails closed on image-load failures only:
whenever any listed file (not only the first) fails to load, all partially
built output is discarded and the empty byte sequence is returned; a
format-conversion failure, by contrast, contributes an empty pixel payload
for that frame and encoding continues. -/
theorem c3_decode_failure_behavior :
    (∀ files : List (Option Surface),
        none ∈ files → AGGFile.spawnIcnFromDir files = [])
    ∧ (∀ a b : Nat, AGGFile.getPixelsFromSurface ⟨a, b, none⟩ = []) := by
  constructor
  · intro files h
    have hne : files.isEmpty = false := by
      cases files with
      | nil => simp at h
      | cons x l => rfl
    simp only [AGGFile.spawnIcnFromDir, hne, Bool.false_eq_true, if_false]
    rw [spawnIcnLoop_of_mem_none files [] 0 h]
  · intro a b
    rfl

/-- Witness for C3: a load failure on the second of two files discards the
first frame's already-built bytes. -/
theorem c3_witness :
    AGGFile.spawnIcnFromDir [some ⟨1, 1, some [0, 0, 0, 0]⟩, none] = [] :=
  c3_decode_failure_behavior.1 _ (by decide)

/-- On an all-decodable listing the encoder loop succeeds and appends, after
the accumulator, exactly the frame-data region whose first header begins at
region offset `acc.length`. -/
theorem spawnIcnLoop_map_some (surfaces : List Surface) :
    ∀ acc : List Nat,
      AGGFile.spawnIcnLoop (surfaces.map some) acc (u32 acc.length)
        = some (acc ++ framesFrom surfaces acc.length) := by
  induction surfaces with
  | nil => intro acc; simp [AGGFile.spawnIcnLoop, framesFrom]
  | cons s rest ih =>
    intro acc
    have hmod : u32 (u32 acc.length + 13) = u32 (acc.length + 13) := by
      simp [u32, Nat.mod_add_mod]
    have hacc : acc ++ slotHeader (u16 s.w) (u16 s.h) (u32 (acc.length + 13))
          ++ [0xAB] ++ [0xCD] ++ [0xEF] ++ AGGFile.getPixelsFromSurface s
        = acc ++ frameBytes s acc.length := by
      simp [frameBytes, List.append_assoc]
    simp only [List.map_cons, AGGFile.spawnIcnLoop, hmod, hacc]
    rw [ih (acc ++ frameBytes s acc.length)]
    simp [framesFrom, List.length_append, List.append_assoc]

/-- On a non-empty all-decodable listing the encoder output is the 6-byte
container header followed by the frame-data region. -/
theorem spawnIcnFromDir_map_some (surfaces : List Surface) (hne : surfaces ≠ []) :
    AGGFile.spawnIcnFromDir (surfaces.map some)
      = (le16 (u16 surfaces.length) ++ le32 (u32 (framesFrom surfaces 0).length))
          ++ framesFrom surfaces 0 := by
  have h := spawnIcnLoop_map_some surfaces []
  simp only [List.length_nil, List.nil_append] at h
  rw [show u32 0 = 0 from rfl] at h
  cases surfaces with
  | nil => exact absurd rfl hne
  | cons s rest =>
    simp only [List.map_cons] at h
    simp only [AGGFile.spawnIcnFromDir, List.map_cons, List.isEmpty_cons,
      Bool.false_eq_true, if_false, h]
    simp [List.length_map]

/-- The 32-bit offsetData field written at region offset
`frameStart surfaces i + 9` equals the frame's absolute running offset plus
13, truncated to 32 bits. -/
theorem framesFrom_field :
    ∀ (surfaces : List Surface) (off i : Nat), i < surfaces.length →
      ((framesFrom surfaces off).drop (frameStart surfaces i + 9)).take 4
        = le32 (u32 (off + frameStart surfaces i + 13)) := by
  intro surfaces
  induction surfaces with
  | nil => intro off i hi; simp at hi
  | cons s rest ih =>
    intro off i hi
    cases i with
    | zero =>
      have h0 : frameStart (s :: rest) 0 = 0 := rfl
      rw [h0, Nat.zero_add, Nat.add_zero]
      show ((frameBytes s off
          ++ framesFrom rest (off + (frameBytes s off).length)).drop 9).take 4
        = le32 (u32 (off + 13))
      rw [show frameBytes s off
            ++ framesFrom rest (off + (frameBytes s off).length)
          = slotHeader (u16 s.w) (u16 s.h) (u32 (off + 13))
            ++ ([0xAB, 0xCD, 0xEF] ++ (AGGFile.getPixelsFromSurface s
                ++ framesFrom rest (off + (frameBytes s off).length)))
          from by simp [frameBytes, List.append_assoc]]
      exact slotHeader_decomp _ _ _ _
    | succ j =>
      have hj : j < rest.length := by
        simpa using Nat.lt_of_succ_lt_succ hi
      have hstep : frameStart (s :: rest) (j + 1) = frameLen s + frameStart rest j := by
        simp [frameStart, List.take_succ_cons]
      show ((frameBytes s off
          ++ framesFrom rest (off + (frameBytes s off).length)).drop
            (frameStart (s :: rest) (j + 1) + 9)).take 4
        = le32 (u32 (off + frameStart (s :: rest) (j + 1) + 13))
      rw [hstep,
        show frameLen s + frameStart rest j + 9
            = (frameBytes s off).length + (frameStart rest j + 9)
          from by rw [frameBytes_length]; omega,
        drop_len_add, frameBytes_length,
        ih (off + frameLen s) j hj,
        show off + frameLen s + frameStart rest j + 13
            = off + (frameLen s + frameStart rest j) + 13 from by omega]

/-- Claim C7: on every successful encode, the prepended 6-byte container
header holds a 16-bit frameCount equal to the number of source images
processed and a 32-bit totalSize equal to the length of the frame-data
region before the header was prepended (the hypotheses keep both quantities
inside their machine ranges). -/
theorem c7_container_header (surfaces : List Surface)
    (hne : surfaces ≠ [])
    (hcount : surfaces.length < 65536)
    (hsize : ((AGGFile.spawnIcnFromDir (surfaces.map some)).drop 6).length
        < 4294967296) :
    decLE16 ((AGGFile.spawnIcnFromDir (surfaces.map some)).take 2)
        = surfaces.length
    ∧ decLE32 (((AGGFile.spawnIcnFromDir (surfaces.map some)).drop 2).take 4)
        = ((AGGFile.spawnIcnFromDir (surfaces.map some)).drop 6).length := by
  rw [spawnIcnFromDir_map_some surfaces hne] at hsize ⊢
  rw [hdr_drop6] at hsize ⊢
  constructor
  · rw [hdr_take2, decLE16_le16]
    simp only [u16]
    omega
  · rw [hdr_drop2_take4, decLE32_le32]
    simp only [u32]
    omega

/-- Witness for C7 on a single 1 by 1 image: frameCount is 1 and totalSize is
the 20-byte region length. -/
theorem c7_witness :
    decLE16 ((AGGFile.spawnIcnFromDir
        (([⟨1, 1, some [9, 8, 7, 6]⟩] : List Surface).map some)).take 2)
      = ([⟨1, 1, some [9, 8, 7, 6]⟩] : List Surface).length
    ∧ decLE32 (((AGGFile.spawnIcnFromDir
        (([⟨1, 1, some [9, 8, 7, 6]⟩] : List Surface).map some)).drop 2).take 4)
      = ((AGGFile.spawnIcnFromDir
        (([⟨1, 1, some [9, 8, 7, 6]⟩] : List Surface).map some)).drop 6).length :=
  c7_container_header [⟨1, 1, some [9, 8, 7, 6]⟩] (by decide) (by decide) (by decide)

/-- Claim C9: for every frame of a successful encode, the pixelDataOffset
field written in its 13-byte header (found in the final blob at byte position
6 + runningOffset + 9, where runningOffset is the cumulative size of all
frame bytes appended before this frame) equals runningOffset + 13: the field
is frame-region-relative, so it under-counts by 6 relative to the start of
the final blob once the container header is prepended. -/
theorem c9_pixelDataOffset (surfaces : List Surface) (i : Nat)
    (hi : i < surfaces.length)
    (hoff : frameStart surfaces i + 13 < 4294967296) :
    decLE32 (((AGGFile.spawnIcnFromDir (surfaces.map some)).drop
        (6 + (frameStart surfaces i + 9))).take 4)
      = frameStart surfaces i + 13 := by
  have hne : surfaces ≠ [] := by
    intro hnil
    rw [hnil] at hi
    simp at hi
  rw [spawnIcnFromDir_map_some surfaces hne, hdr_drop6_add,
    framesFrom_field surfaces 0 i hi, decLE32_le32]
  simp only [u32, Nat.zero_add]
  omega

/-- Witness for C9 on the two-image directory (2 by 2 then 1 by 1), second
frame: its field equals its running offset 32 plus 13. -/
theorem c9_witness :
    decLE32 (((AGGFile.spawnIcnFromDir
        (([⟨2, 2, some (List.replicate 16 3)⟩, ⟨1, 1, some (List.replicate 4 4)⟩]
          : List Surface).map some)).drop
        (6 + (frameStart [⟨2, 2, some (List.replicate 16 3)⟩,
            ⟨1, 1, some (List.replicate 4 4)⟩] 1 + 9))).take 4)
      = frameStart [⟨2, 2, some (List.replicate 16 3)⟩,
          ⟨1, 1, some (List.replicate 4 4)⟩] 1 + 13 :=
  c9_pixelDataOffset _ 1 (by decide) (by decide)
